import Mathlib

/-!
Verification of the core of the arrow-rs IPC reader and its supporting
columnar primitives, as described by the accompanying specification.

The development shallowly embeds the Rust source:
* `Bmp` embeds `arrow-data/src/bitmap.rs` (validity bitmaps and their
  bitwise composition and equality).
* `Rexp` embeds the pattern-string construction of
  `arrow-string/src/regexp.rs`.
* `UnionEq` embeds `arrow/src/array/equal/union.rs` (union equality).
* `Ipc` embeds `arrow/src/ipc/reader.rs` (array reconstruction,
  projection skipping, record-batch decoding and the stream reader).

Machine integers are modelled as `Nat`/`Int`; a Rust panic (out-of-range
slice index, failed `assert!`, explicit `panic!`) is modelled as a
distinguished error constructor, so every fallible computation lives in
`Except`. External collaborators that the source calls but whose code is
not part of the modelled crates (the FlatBuffers decoder, the cast
kernel, low-level buffer combinators, array constructors) are either
taken as explicit function parameters or modelled from the specification,
as flagged by their doc comments.
-/

namespace Bmp

/-- The byte contents of a `Buffer`, as exposed by `as_slice`. -/
abbrev Buf := List Nat

/-- Errors of the bitmap operations: `computeError` models
`ArrowError::ComputeError` (the ShapeMismatch of the spec), `panicked`
models a Rust panic (failed `assert!` or slice index out of range). -/
inductive BmpError where
  | computeError (msg : String)
  | panicked (msg : String)
deriving DecidableEq, Repr

/-- `Bitmap` from `bitmap.rs`: a buffer plus a bit offset and a bit length. -/
structure Bitmap where
  bits : Buf
  offset : Nat
  length : Nat
deriving DecidableEq, Repr

/-- `bit_util::ceil(a, 8)`. -/
def ceil8 (n : Nat) : Nat := (n + 7) / 8

/-- `bit_util::round_upto_multiple_of_64`. -/
def roundUpto64 (n : Nat) : Nat := ((n + 63) / 64) * 64

/-- `Bitmap::new`: allocates `ceil(num_bits/8)` bytes rounded up to a
multiple of 64, filled with `0xFF`. -/
def Bitmap.new (numBits : Nat) : Bitmap :=
  { bits := List.replicate (roundUpto64 (ceil8 numBits)) 255
    offset := 0
    length := numBits }

/-- `Bitmap::bit_len`. -/
def Bitmap.bitLen (b : Bitmap) : Nat := b.length

/-- Value of bit `bitIdx` of a byte sequence: byte `bitIdx >> 3`,
bit `bitIdx & 7`; bytes beyond the end read as 0. -/
def getBitAt (bytes : Buf) (bitIdx : Nat) : Bool :=
  (bytes.getD (bitIdx / 8) 0) / 2 ^ (bitIdx % 8) % 2 = 1

/-- `Bitmap::is_set`: `get_bit_raw(self.bits.as_ptr().add(self.offset), i)`,
i.e. the pointer is advanced by `offset` bytes and then bit `i` is read
(byte `offset + (i >> 3)`, bit `i & 7`); asserts `i < length`. -/
def Bitmap.isSet (b : Bitmap) (i : Nat) : Except BmpError Bool :=
  if i < b.length then
    .ok ((b.bits.getD (b.offset + i / 8) 0) / 2 ^ (i % 8) % 2 = 1)
  else
    .error (.panicked "assertion failed: i < self.length")

/-- `Bitmap::new_from_buffer`: asserts
`offset + length <= buf.len() * 8`. -/
def Bitmap.newFromBuffer (buf : Buf) (offset length : Nat) :
    Except BmpError Bitmap :=
  if offset + length ≤ buf.length * 8 then
    .ok { bits := buf, offset := offset, length := length }
  else
    .error (.panicked
      "the offset + length of the new Bitmap cannot exceed the bit length of the Buffer")

/-- Rust slice indexing `s[a..b]`: panics unless `a <= b <= s.len()`. -/
def sliceRange (s : Buf) (a b : Nat) : Except BmpError Buf :=
  if a ≤ b ∧ b ≤ s.length then
    .ok ((s.drop a).take (b - a))
  else
    .error (.panicked "slice index out of range")

/-- Modelled from the spec: `buffer_bin_and` of the external
`arrow_buffer` crate produces `ceil(len_in_bits/8)` bytes whose bit `i`
(for `i < len_in_bits`) is the conjunction of bit `left_offset + i` of
the left buffer and bit `right_offset + i` of the right buffer. -/
def bufferBinAnd (l : Buf) (lOff : Nat) (r : Buf) (rOff : Nat)
    (lenBits : Nat) : Buf :=
  (List.range (ceil8 lenBits)).map (fun j =>
    (List.range 8).foldl (fun acc k =>
      acc + (if 8 * j + k < lenBits
                ∧ getBitAt l (lOff + (8 * j + k))
                ∧ getBitAt r (rOff + (8 * j + k))
             then 2 ^ k else 0)) 0)

/-- Modelled from the spec: `buffer_bin_or` of the external
`arrow_buffer` crate, disjunction analogue of `bufferBinAnd`. -/
def bufferBinOr (l : Buf) (lOff : Nat) (r : Buf) (rOff : Nat)
    (lenBits : Nat) : Buf :=
  (List.range (ceil8 lenBits)).map (fun j =>
    (List.range 8).foldl (fun acc k =>
      acc + (if 8 * j + k < lenBits
                ∧ (getBitAt l (lOff + (8 * j + k))
                   ∨ getBitAt r (rOff + (8 * j + k)))
             then 2 ^ k else 0)) 0)

/-- `BitAnd for &Bitmap`: note the guard compares the BYTE lengths of the
underlying buffers (`self.bits.len() != rhs.bits.len()`), then builds a
fresh bitmap over `buffer_bin_and` at offset 0 with `self.bit_len()` bits. -/
def Bitmap.bitand (a b : Bitmap) : Except BmpError Bitmap :=
  if a.bits.length ≠ b.bits.length then
    .error (.computeError "Bitmaps must be the same size to apply Bitwise AND.")
  else
    Bitmap.newFromBuffer
      (bufferBinAnd a.bits a.offset b.bits b.offset a.bitLen) 0 a.bitLen

/-- `BitOr for &Bitmap`: the guard compares the BIT lengths
(`self.bit_len() != rhs.bit_len()`), then builds a fresh bitmap over
`buffer_bin_or` at offset 0 with `self.bit_len()` bits. -/
def Bitmap.bitor (a b : Bitmap) : Except BmpError Bitmap :=
  if a.bitLen ≠ b.bitLen then
    .error (.computeError "Bitmaps must be the same size to apply Bitwise OR.")
  else
    Bitmap.newFromBuffer
      (bufferBinOr a.bits a.offset b.bits b.offset a.bitLen) 0 a.bitLen

/-- `PartialEq for Bitmap`: after comparing `bit_len`s, compares the BYTE
slices `bits.as_slice()[self.offset..self_len]` and
`bits.as_slice()[other.offset..self_len]`, where `self_len` is the BIT
length and `offset` the BIT offset, exactly as the source does. -/
def Bitmap.eqImpl (x y : Bitmap) : Except BmpError Bool := do
  let selfLen := x.bitLen
  let otherLen := y.bitLen
  if selfLen ≠ otherLen then
    return false
  else do
    let l ← sliceRange x.bits x.offset selfLen
    let r ← sliceRange y.bits y.offset selfLen
    return l == r

/-- The equality the claim describes (spec side of the refinement): equal
bit lengths, and for every `i < bit_len` the bit at absolute position
`offset_bits + i` (byte `(offset_bits + i) >> 3`, bit
`(offset_bits + i) & 7`) agrees between the two buffers. -/
def specBitmapEq (x y : Bitmap) : Bool :=
  x.length == y.length &&
    (List.range x.length).all (fun i =>
      getBitAt x.bits (x.offset + i) == getBitAt y.bits (y.offset + i))

theorem bufferBinAnd_length (l : Buf) (lOff : Nat) (r : Buf) (rOff : Nat)
    (lenBits : Nat) :
    (bufferBinAnd l lOff r rOff lenBits).length = ceil8 lenBits := by
  simp [bufferBinAnd]

theorem bufferBinOr_length (l : Buf) (lOff : Nat) (r : Buf) (rOff : Nat)
    (lenBits : Nat) :
    (bufferBinOr l lOff r rOff lenBits).length = ceil8 lenBits := by
  simp [bufferBinOr]

theorem ceil8_mul_eight (n : Nat) : n ≤ ceil8 n * 8 := by
  simp only [ceil8]
  omega

theorem bitand_eq_of_byteLen_eq (a b : Bitmap)
    (h : a.bits.length = b.bits.length) :
    a.bitand b =
      .ok { bits := bufferBinAnd a.bits a.offset b.bits b.offset a.bitLen
            offset := 0
            length := a.bitLen } := by
  unfold Bitmap.bitand Bitmap.newFromBuffer
  rw [if_neg (by simpa using h), if_pos
    (by simpa [bufferBinAnd_length] using ceil8_mul_eight a.bitLen)]

theorem bitor_eq_of_bitLen_eq (a b : Bitmap) (h : a.bitLen = b.bitLen) :
    a.bitor b =
      .ok { bits := bufferBinOr a.bits a.offset b.bits b.offset a.bitLen
            offset := 0
            length := a.bitLen } := by
  unfold Bitmap.bitor Bitmap.newFromBuffer
  rw [if_neg (by simpa using h), if_pos
    (by simpa [bufferBinOr_length] using ceil8_mul_eight a.bitLen)]

/-- C2 counterexample: the claim that bitwise AND fails exactly when the
LOGICAL bit lengths differ is false. Two bitmaps over equal-sized 1-byte
buffers but with bit lengths 3 and 5 are AND-ed successfully, while two
bitmaps with equal bit length 8 over buffers of 2 and 1 bytes make AND
fail with the shape-mismatch (ComputeError) error. -/
theorem C2_counterexample :
    (Bitmap.bitand ⟨[255], 0, 3⟩ ⟨[255], 0, 5⟩).isOk = true
    ∧ (Bitmap.mk [255] 0 3).bitLen ≠ (Bitmap.mk [255] 0 5).bitLen
    ∧ Bitmap.bitand ⟨[255, 0], 0, 8⟩ ⟨[255], 0, 8⟩ =
        .error (.computeError
          "Bitmaps must be the same size to apply Bitwise AND.")
    ∧ (Bitmap.mk [255, 0] 0 8).bitLen = (Bitmap.mk [255] 0 8).bitLen := by
  refine ⟨?_, by decide, by rfl, by decide⟩
  rw [bitand_eq_of_byteLen_eq ⟨[255], 0, 3⟩ ⟨[255], 0, 5⟩ rfl]
  rfl

/-- C2 amended: bitwise OR of two bitmaps fails with the shape-mismatch
(ComputeError) error exactly when their logical bit lengths differ, but
bitwise AND fails exactly when the BYTE lengths of their underlying
buffers differ; on success each produces a fresh bitmap at offset 0 with
the left operand's bit length. -/
theorem C2_amended_and_or_shape (a b : Bitmap) :
    ((∃ m, a.bitand b = .error (.computeError m)) ↔
        a.bits.length ≠ b.bits.length)
    ∧ ((∃ m, a.bitor b = .error (.computeError m)) ↔ a.bitLen ≠ b.bitLen)
    ∧ ((a.bitand b).map (fun c => (c.offset, c.bitLen)) = .ok (0, a.bitLen) ↔
        a.bits.length = b.bits.length)
    ∧ ((a.bitor b).map (fun c => (c.offset, c.bitLen)) = .ok (0, a.bitLen) ↔
        a.bitLen = b.bitLen) := by
  refine ⟨?_, ?_, ?_, ?_⟩
  · by_cases h : a.bits.length = b.bits.length
    · rw [bitand_eq_of_byteLen_eq a b h]
      simp [h]
    · simp [Bitmap.bitand, h]
  · by_cases h : a.bitLen = b.bitLen
    · rw [bitor_eq_of_bitLen_eq a b h]
      simp [h]
    · simp [Bitmap.bitor, h]
  · by_cases h : a.bits.length = b.bits.length
    · rw [bitand_eq_of_byteLen_eq a b h]
      simp [h, Bitmap.bitLen, Except.map]
    · simp [Bitmap.bitand, h, Except.map]
  · by_cases h : a.bitLen = b.bitLen
    · rw [bitor_eq_of_bitLen_eq a b h]
      simp only [Bitmap.bitLen, Except.map]
      simpa using h
    · simp [Bitmap.bitor, h, Except.map]

/-- C3: bitmap equality does NOT compare the logical bit range. The
implementation compares BYTE slices indexed by the bit offset and bit
length. Failing inputs: the bitmaps ([0x01], offset 0, len 1) and
([0x02], offset 1, len 1) hold the same single logical bit under the
claimed bit addressing (byte `(offset+i) >> 3`, bit `(offset+i) & 7`),
yet the code returns `false`; and comparing `Bitmap::new 100` with itself
panics (slice `[0..100]` of a 64-byte buffer), where the claim demands
`true`. -/
theorem C3_bitmap_eq_divergence :
    Bitmap.eqImpl ⟨[1], 0, 1⟩ ⟨[2], 1, 1⟩ = .ok false
    ∧ specBitmapEq ⟨[1], 0, 1⟩ ⟨[2], 1, 1⟩ = true
    ∧ Bitmap.eqImpl (Bitmap.new 100) (Bitmap.new 100) =
        .error (.panicked "slice index out of range")
    ∧ specBitmapEq (Bitmap.new 100) (Bitmap.new 100) = true := by
  refine ⟨by rfl, by decide, by rfl, by decide⟩

end Bmp

namespace Rexp

/-- Pattern string built by the scalar branch of `regexp_match`
(`arrow-string/src/regexp.rs`): with a flag present it formats
`(?` ++ regex ++ `)` ++ flag, i.e. the regex goes inside the group and
the flag is appended after it. -/
def regexpMatchScalarPattern (regex : String) (flag : Option String) :
    String :=
  match flag with
  | some flag => "(?" ++ regex ++ ")" ++ flag
  | none => regex

/-- Pattern string built per element by `regexp_array_match` (and by the
flags branch of `regexp_is_match_utf8`): with a flag value present it
formats `(?` ++ flag ++ `)` ++ pattern. -/
def regexpArrayMatchPattern (pattern : String) (flags : Option String) :
    String :=
  match flags with
  | some value => "(?" ++ value ++ ")" ++ pattern
  | none => pattern

/-- C9: the scalar branch of `regexp_match` builds `(?regex)flag` while
the array branches build `(?flag)regex`; for the regex `a` and the
non-empty flag `i` the two constructions produce different pattern
strings. -/
theorem C9_scalar_array_pattern_swap :
    (∀ regex flag,
        regexpMatchScalarPattern regex (some flag) =
          "(?" ++ regex ++ ")" ++ flag)
    ∧ (∀ pattern flag,
        regexpArrayMatchPattern pattern (some flag) =
          "(?" ++ flag ++ ")" ++ pattern)
    ∧ ("i" ≠ ""
        ∧ regexpMatchScalarPattern "a" (some "i") ≠
            regexpArrayMatchPattern "a" (some "i")) :=
  ⟨fun _ _ => rfl, fun _ _ => rfl, by decide, by decide⟩

end Rexp

namespace UnionEq

/-!
Embedding of `arrow/src/array/equal/union.rs`. The typed buffer views
`buffer::<i8>(0)` and `buffer::<i32>(1)` are modelled as `List Int`
entries of the array's buffer list; the externally defined helpers
`equal_range`, `equal_nulls` and `child_logical_null_buffer_for_union`
(from the `equal` module, outside the provided sources) are taken as
function parameters. A Rust panic is `Except.error`.
-/

inductive UnionMode where
  | Dense
  | Sparse
deriving DecidableEq, Repr

mutual
/-- `DataType` as used by the union-equality module: leaves plus the
`Union(fields, mode)` variant of that crate version. -/
inductive UDataType where
  | Int32T
  | Float64T
  | UnionT (fields : List UField) (mode : UnionMode)
/-- `Field`: name and data type (the parts union equality reads). -/
inductive UField where
  | mk (name : String) (dataType : UDataType)
end

mutual
/-- Structural equality of data types, the derived `PartialEq` the source
compares logical types with. -/
def udtBeq : UDataType → UDataType → Bool
  | .Int32T, .Int32T => true
  | .Float64T, .Float64T => true
  | .UnionT fs1 m1, .UnionT fs2 m2 => udtBeqFields fs1 fs2 && (m1 == m2)
  | _, _ => false

/-- List part of `udtBeq`. -/
def udtBeqFields : List UField → List UField → Bool
  | [], [] => true
  | .mk n1 d1 :: fs, .mk n2 d2 :: gs =>
      (n1 == n2) && udtBeq d1 d2 && udtBeqFields fs gs
  | _, _ => false
end

def UField.dataTypeOf : UField → UDataType
  | .mk _ d => d

/-- Untyped columnar node as union equality sees it: data type, typed
buffer views, child arrays. -/
inductive UArrayData where
  | mk (dataType : UDataType) (buffers : List (List Int))
      (childData : List UArrayData)

def UArrayData.dataTypeOf : UArrayData → UDataType
  | .mk d _ _ => d

def UArrayData.buffersOf : UArrayData → List (List Int)
  | .mk _ b _ => b

def UArrayData.childDataOf : UArrayData → List UArrayData
  | .mk _ _ c => c

/-- `ArrayData::buffer::<T>(i)`: indexing the buffer list, panicking when
out of range. -/
def UArrayData.buffer (a : UArrayData) (i : Nat) : Except String (List Int) :=
  match a.buffersOf.get? i with
  | some b => .ok b
  | none => .error "index out of bounds: buffers"

/-- `xs.get(type_id as usize).unwrap()` and `xs[type_id as usize]`: a
negative id wraps to a huge index, so both negative and too-large ids
panic. -/
def listGetById (xs : List α) (i : Int) : Except String α :=
  if h : 0 ≤ i ∧ i.toNat < xs.length then
    .ok (xs.get ⟨i.toNat, h.2⟩)
  else
    .error "index out of bounds: type id"

/-- Rust slice `&xs[a..a + len]`: panics when the range leaves the slice. -/
def intSlice (xs : List Int) (a len : Nat) : Except String (List Int) :=
  if a + len ≤ xs.length then
    .ok ((xs.drop a).take len)
  else
    .error "slice index out of range"

/-- `offset as usize` for a signed offset: sign-extension to 64 bits. -/
def usizeOf (i : Int) : Nat := (i % (18446744073709551616 : Int)).toNat

/-- Type of the external `equal_range`
(lhs, rhs, lhs_nulls, rhs_nulls, lhs_start, rhs_start, len). -/
abbrev EqualRangeFn :=
  UArrayData → UArrayData → Option (List Nat) → Option (List Nat) →
    Nat → Nat → Nat → Bool

/-- Type of the external `equal_nulls`. -/
abbrev EqualNullsFn :=
  UArrayData → UArrayData → Option (List Nat) → Option (List Nat) →
    Nat → Nat → Nat → Bool

/-- Type of the external `child_logical_null_buffer_for_union`
(parent, parent_nulls, child, type_id). -/
abbrev ClnbFn :=
  UArrayData → Option (List Nat) → UArrayData → Int → Option (List Nat)

/-- `equal_types`: maps EVERY position of the two given type-id slices to
the data type of the field it selects (unwrap panics on a bad id), zips
the two type lists (truncating to the shorter) and requires pointwise
equality of logical types. -/
def equalTypes (lhsFields rhsFields : List UField)
    (lhsTypeIds rhsTypeIds : List Int) : Except String Bool := do
  let lhsSlotsTypes ← lhsTypeIds.mapM (fun tid => do
    let f ← listGetById lhsFields tid
    pure f.dataTypeOf)
  let rhsSlotsTypes ← rhsTypeIds.mapM (fun tid => do
    let f ← listGetById rhsFields tid
    pure f.dataTypeOf)
  pure ((lhsSlotsTypes.zip rhsSlotsTypes).all (fun p => udtBeq p.1 p.2))

/-- Loop of `equal_dense`: per position, select the child by type id on
each side and compare one element at the two dense offsets. -/
def equalDenseGo (equalRange : EqualRangeFn) (lhs rhs : UArrayData) :
    List ((Int × Int) × (Int × Int)) → Except String Bool
  | [] => pure true
  | ((lId, rId), (lOff, rOff)) :: rest => do
      let lhsValues ← listGetById lhs.childDataOf lId
      let rhsValues ← listGetById rhs.childDataOf rId
      if equalRange lhsValues rhsValues none none
          (usizeOf lOff) (usizeOf rOff) 1 then
        equalDenseGo equalRange lhs rhs rest
      else
        pure false

/-- `equal_dense`. -/
def equalDense (equalRange : EqualRangeFn) (lhs rhs : UArrayData)
    (lhsTypeIds rhsTypeIds lhsOffsets rhsOffsets : List Int) :
    Except String Bool :=
  equalDenseGo equalRange lhs rhs
    ((lhsTypeIds.zip rhsTypeIds).zip (lhsOffsets.zip rhsOffsets))

/-- Loop of `equal_sparse`: per position, merge parent nulls into each
selected child and compare one element at `(lhs_start + i, rhs_start + i)`. -/
def equalSparseGo (equalRange : EqualRangeFn) (clnb : ClnbFn)
    (lhs rhs : UArrayData) (lhsNulls rhsNulls : Option (List Nat))
    (lhsStart rhsStart : Nat) :
    Nat → List (Int × Int) → Except String Bool
  | _, [] => pure true
  | index, (lId, rId) :: rest => do
      let lhsValues ← listGetById lhs.childDataOf lId
      let rhsValues ← listGetById rhs.childDataOf rId
      let lhsMergedNulls := clnb lhs lhsNulls lhsValues lId
      let rhsMergedNulls := clnb rhs rhsNulls rhsValues rId
      if equalRange lhsValues rhsValues lhsMergedNulls rhsMergedNulls
          (lhsStart + index) (rhsStart + index) 1 then
        equalSparseGo equalRange clnb lhs rhs lhsNulls rhsNulls
          lhsStart rhsStart (index + 1) rest
      else
        pure false

/-- `equal_sparse`. -/
def equalSparse (equalRange : EqualRangeFn) (clnb : ClnbFn)
    (lhs rhs : UArrayData) (lhsNulls rhsNulls : Option (List Nat))
    (lhsTypeIds rhsTypeIds : List Int) (lhsStart rhsStart : Nat) :
    Except String Bool :=
  equalSparseGo equalRange clnb lhs rhs lhsNulls rhsNulls lhsStart rhsStart
    0 (lhsTypeIds.zip rhsTypeIds)

/-- Loop of `equal_dense_sparse` (the debug print of the source is a pure
side effect and is dropped): compare the dense element at
`lhs_offsets[index]` with the sparse element at `rhs_start + index`. -/
def equalDenseSparseGo (equalRange : EqualRangeFn) (lhs rhs : UArrayData)
    (lhsOffsets : List Int) (rhsStart : Nat) :
    Nat → List (Int × Int) → Except String Bool
  | _, [] => pure true
  | index, (lId, rId) :: rest => do
      let lhsValues ← listGetById lhs.childDataOf lId
      let rhsValues ← listGetById rhs.childDataOf rId
      let lOffset ←
        match lhsOffsets.get? index with
        | some o => Except.ok o
        | none => Except.error "index out of bounds: lhs offsets"
      if equalRange lhsValues rhsValues none none
          (usizeOf lOffset) (rhsStart + index) 1 then
        equalDenseSparseGo equalRange lhs rhs lhsOffsets rhsStart
          (index + 1) rest
      else
        pure false

/-- `equal_dense_sparse` (lhs dense, rhs sparse); its null arguments are
received but unused by the source. -/
def equalDenseSparse (equalRange : EqualRangeFn) (lhs rhs : UArrayData)
    (_lhsNulls _rhsNulls : Option (List Nat))
    (lhsTypeIds rhsTypeIds : List Int) (lhsOffsets : List Int)
    (rhsStart : Nat) : Except String Bool :=
  equalDenseSparseGo equalRange lhs rhs lhsOffsets rhsStart
    0 (lhsTypeIds.zip rhsTypeIds)

/-- `union_equal`: dispatch on the two union modes; each case first reads
the typed buffers, takes the windowed slices, and then chains
`equal_types` (on the FULL type-id buffers) with the per-mode comparison,
short-circuiting on false. -/
def unionEqual (equalRange : EqualRangeFn) (equalNulls : EqualNullsFn)
    (clnb : ClnbFn) (lhs rhs : UArrayData)
    (lhsNulls rhsNulls : Option (List Nat))
    (lhsStart rhsStart len : Nat) : Except String Bool := do
  let lhsTypeIds ← lhs.buffer 0
  let rhsTypeIds ← rhs.buffer 0
  match lhs.dataTypeOf, rhs.dataTypeOf with
  | .UnionT lhsFields .Dense, .UnionT rhsFields .Dense => do
      let lhsOffsets ← lhs.buffer 1
      let rhsOffsets ← rhs.buffer 1
      let lhsTypeIdRange ← intSlice lhsTypeIds lhsStart len
      let rhsTypeIdRange ← intSlice rhsTypeIds rhsStart len
      let lhsOffsetsRange ← intSlice lhsOffsets lhsStart len
      let rhsOffsetsRange ← intSlice rhsOffsets rhsStart len
      let t ← equalTypes lhsFields rhsFields lhsTypeIds rhsTypeIds
      if t then
        if equalNulls lhs rhs lhsNulls rhsNulls lhsStart rhsStart len then
          equalDense equalRange lhs rhs lhsTypeIdRange rhsTypeIdRange
            lhsOffsetsRange rhsOffsetsRange
        else pure false
      else pure false
  | .UnionT lhsFields .Sparse, .UnionT rhsFields .Sparse => do
      let lhsTypeIdRange ← intSlice lhsTypeIds lhsStart len
      let rhsTypeIdRange ← intSlice rhsTypeIds rhsStart len
      let t ← equalTypes lhsFields rhsFields lhsTypeIds rhsTypeIds
      if t then
        equalSparse equalRange clnb lhs rhs lhsNulls rhsNulls
          lhsTypeIdRange rhsTypeIdRange lhsStart rhsStart
      else pure false
  | .UnionT lhsFields .Dense, .UnionT rhsFields .Sparse => do
      let lhsOffsets ← lhs.buffer 1
      let lhsTypeIdRange ← intSlice lhsTypeIds lhsStart len
      let rhsTypeIdRange ← intSlice rhsTypeIds rhsStart len
      let lhsOffsetsRange ← intSlice lhsOffsets lhsStart len
      let t ← equalTypes lhsFields rhsFields lhsTypeIds rhsTypeIds
      if t then
        equalDenseSparse equalRange lhs rhs lhsNulls rhsNulls
          lhsTypeIdRange rhsTypeIdRange lhsOffsetsRange rhsStart
      else pure false
  | .UnionT lhsFields .Sparse, .UnionT rhsFields .Dense => do
      let rhsOffsets ← rhs.buffer 1
      let lhsTypeIdRange ← intSlice lhsTypeIds lhsStart len
      let rhsTypeIdRange ← intSlice rhsTypeIds rhsStart len
      let rhsOffsetsRange ← intSlice rhsOffsets rhsStart len
      let t ← equalTypes lhsFields rhsFields lhsTypeIds rhsTypeIds
      if t then
        equalDenseSparse equalRange rhs lhs rhsNulls lhsNulls
          rhsTypeIdRange lhsTypeIdRange rhsOffsetsRange lhsStart
      else pure false
  | _, _ => .error "unreachable"

/-- An `equal_range` stand-in that deems every one-element comparison
equal; used only to exhibit concrete behaviour of `unionEqual`. -/
def trueEqualRange : EqualRangeFn := fun _ _ _ _ _ _ _ => true

/-- An `equal_nulls` stand-in that accepts every null comparison. -/
def trueEqualNulls : EqualNullsFn := fun _ _ _ _ _ _ _ => true

/-- A `child_logical_null_buffer_for_union` stand-in returning no nulls. -/
def noneClnb : ClnbFn := fun _ _ _ _ => none

/-- Field list of the concrete example unions: variant 0 is Int32,
variant 1 is Float64. -/
def exFields : List UField := [UField.mk "a" .Int32T, UField.mk "b" .Float64T]

/-- A child array of the example unions. -/
def exChild : UArrayData := UArrayData.mk .Int32T [] []

/-- Example dense union: type ids `[0, 0]`, offsets `[0, 0]`. -/
def exLhs : UArrayData :=
  UArrayData.mk (.UnionT exFields .Dense) [[0, 0], [0, 0]] [exChild, exChild]

/-- Example dense union differing from `exLhs` only in the type id at
position 1: type ids `[0, 1]`, offsets `[0, 0]`. -/
def exRhsOut : UArrayData :=
  UArrayData.mk (.UnionT exFields .Dense) [[0, 1], [0, 0]] [exChild, exChild]

/-- C4 counterexample: with the comparison window `(0, 0, 1)`, comparing
`exLhs` against itself yields equal, but comparing it against `exRhsOut`
— identical except for the type id at position 1, which lies OUTSIDE the
window and selects a different logical type — yields not-equal, even
though the windowed type-id ranges of the two right-hand sides coincide.
So type ids outside the window do affect the result, contradicting the
claim that the logical-type comparison covers exactly the windowed
positions. -/
theorem C4_counterexample :
    unionEqual trueEqualRange trueEqualNulls noneClnb
        exLhs exLhs none none 0 0 1 = .ok true
    ∧ unionEqual trueEqualRange trueEqualNulls noneClnb
        exLhs exRhsOut none none 0 0 1 = .ok false
    ∧ intSlice [0, 0] 0 1 = intSlice [0, 1] 0 1 := by
  refine ⟨by rfl, by rfl, by rfl⟩

/-- C4 amended: in every mode combination, `union_equal` runs its
field-by-field logical-type comparison (`equal_types`) over the FULL
type-id buffers zipped index by index — not over the windowed ranges —
and whenever that full comparison reports a mismatch the result is
not-equal, for every choice of the external comparison helpers. -/
theorem C4_amended_full_buffer_type_check
    (equalRange : EqualRangeFn) (equalNulls : EqualNullsFn) (clnb : ClnbFn)
    (lhs rhs : UArrayData) (lhsNulls rhsNulls : Option (List Nat))
    (lhsStart rhsStart len : Nat)
    (lf rf : List UField) (lm rm : UnionMode)
    (hl : lhs.dataTypeOf = .UnionT lf lm)
    (hr : rhs.dataTypeOf = .UnionT rf rm)
    (lhsIds rhsIds : List Int)
    (hbl : lhs.buffer 0 = .ok lhsIds)
    (hbr : rhs.buffer 0 = .ok rhsIds)
    (hsl : lhsStart + len ≤ lhsIds.length)
    (hsr : rhsStart + len ≤ rhsIds.length)
    (hol : lm = .Dense → ∃ offs, lhs.buffer 1 = .ok offs ∧
        lhsStart + len ≤ offs.length)
    (hor : rm = .Dense → ∃ offs, rhs.buffer 1 = .ok offs ∧
        rhsStart + len ≤ offs.length)
    (ht : equalTypes lf rf lhsIds rhsIds = .ok false) :
    unionEqual equalRange equalNulls clnb lhs rhs lhsNulls rhsNulls
        lhsStart rhsStart len = .ok false := by
  unfold unionEqual
  rw [hbl, hbr]
  simp only [bind, Except.bind]
  rw [hl, hr]
  cases lm with
  | Dense =>
    obtain ⟨loffs, hlo, hlolen⟩ := hol rfl
    cases rm with
    | Dense =>
      obtain ⟨roffs, hro, hrolen⟩ := hor rfl
      rw [hlo, hro]
      simp only [intSlice, if_pos hsl, if_pos hsr,
        if_pos hlolen, if_pos hrolen, ht]
      rfl
    | Sparse =>
      rw [hlo]
      simp only [intSlice, if_pos hsl, if_pos hsr,
        if_pos hlolen, ht]
      rfl
  | Sparse =>
    cases rm with
    | Dense =>
      obtain ⟨roffs, hro, hrolen⟩ := hor rfl
      rw [hro]
      simp only [intSlice, if_pos hsl, if_pos hsr,
        if_pos hrolen, ht]
      rfl
    | Sparse =>
      simp only [intSlice, if_pos hsl, if_pos hsr, ht]
      rfl

/-- Witness for the amended C4: instantiating the external helpers and
the arrays concretely, the full-buffer type mismatch of `exRhsOut` at
position 1 forces not-equal on the window `(0, 0, 1)`. -/
theorem C4_amended_witness :
    unionEqual trueEqualRange trueEqualNulls noneClnb
        exLhs exRhsOut none none 0 0 1 = .ok false :=
  C4_amended_full_buffer_type_check trueEqualRange trueEqualNulls noneClnb
    exLhs exRhsOut none none 0 0 1 exFields exFields .Dense .Dense
    rfl rfl [0, 0] [0, 1] rfl rfl (by decide) (by decide)
    (fun _ => ⟨[0, 0], rfl, by decide⟩)
    (fun _ => ⟨[0, 0], rfl, by decide⟩)
    (by rfl)

end UnionEq

namespace Ipc

/-!
Embedding of `arrow/src/ipc/reader.rs`. Bytes are `Nat`s below 256, byte
regions are `List Nat`, and machine indices are `Nat`. A Rust panic
(slice/index out of bounds, explicit `panic!`, `unreachable!`) is the
`AError.panicked` error; `ArrowError::IoError` and
`ArrowError::InvalidArgumentError` keep their own constructors. The
external cast kernel (`compute::cast`) is a function parameter; array
assembly helpers living outside the provided sources
(`StructArray::from`, `UnionArray::try_new`, the `ArrayData` builder
validation) are modelled as plain constructions, since no claim depends
on their internals.
-/

inductive IntervalUnit where
  | YearMonth
  | DayTime
  | MonthDayNano
deriving DecidableEq, Repr

inductive TimeUnit where
  | Second
  | Millisecond
  | Microsecond
  | Nanosecond
deriving DecidableEq, Repr

inductive UnionMode where
  | Dense
  | Sparse
deriving DecidableEq, Repr

inductive MetadataVersion where
  | V1
  | V2
  | V3
  | V4
  | V5
deriving DecidableEq, Repr

def MetadataVersion.idx : MetadataVersion → Nat
  | .V1 => 0
  | .V2 => 1
  | .V3 => 2
  | .V4 => 3
  | .V5 => 4

/-- The derived `PartialOrd` comparison `metadata < &MetadataVersion::V5`
and friends. -/
def MetadataVersion.lt (a b : MetadataVersion) : Bool := a.idx < b.idx

mutual
/-- `DataType` of the reader's crate version (the variants its matches
distinguish; payloads it never reads are kept abstractly). -/
inductive DataType where
  | Null
  | Boolean
  | Int8
  | Int16
  | Int32
  | Int64
  | UInt8
  | UInt16
  | UInt32
  | UInt64
  | Float16
  | Float32
  | Float64
  | Timestamp (unit : TimeUnit) (tz : Option String)
  | Date32
  | Date64
  | Time32 (unit : TimeUnit)
  | Time64 (unit : TimeUnit)
  | Duration (unit : TimeUnit)
  | Interval (unit : IntervalUnit)
  | Binary
  | FixedSizeBinary (size : Int)
  | LargeBinary
  | Utf8
  | LargeUtf8
  | List (field : Field)
  | FixedSizeList (field : Field) (size : Int)
  | LargeList (field : Field)
  | Struct (fields : List Field)
  | Union (fields : List Field) (typeIds : List Int) (mode : UnionMode)
  | Dictionary (keyType : DataType) (valueType : DataType)
  | Decimal (precision : Nat) (scale : Nat)
  | Map (field : Field) (sorted : Bool)

/-- `Field`: name, data type, nullability and the optional dictionary id
that `Field::dict_id()` reports. -/
inductive Field where
  | mk (name : String) (dataType : DataType) (nullable : Bool)
      (dictId : Option Int)
end

def Field.nameOf : Field → String
  | .mk n _ _ _ => n

def Field.dataTypeOf : Field → DataType
  | .mk _ d _ _ => d

def Field.nullableOf : Field → Bool
  | .mk _ _ b _ => b

def Field.dictIdOf : Field → Option Int
  | .mk _ _ _ i => i

/-- `ipc::FieldNode`: per-array length and null count. -/
structure FieldNode where
  length : Nat
  nullCount : Nat
deriving DecidableEq, Repr

/-- `ipc::Buffer`: a buffer descriptor `(offset, length)` into the body. -/
structure IpcBuffer where
  offset : Nat
  length : Nat
deriving DecidableEq, Repr

/-- Error model: `ioError` is `ArrowError::IoError` (the DecodeError of
the spec), `invalidArgumentError` is `ArrowError::InvalidArgumentError`,
and `panicked` is a Rust panic. -/
inductive AError where
  | ioError (msg : String)
  | invalidArgumentError (msg : String)
  | panicked (msg : String)
deriving DecidableEq, Repr

abbrev RResult (α : Type) := Except AError α

/-- `xs[i]`: panics when out of bounds. -/
def listIndex {α : Type} (xs : List α) (i : Nat) : RResult α :=
  match xs.get? i with
  | some x => .ok x
  | none => .error (.panicked "index out of bounds")

/-- `&xs[a..b]`: panics unless `a <= b <= xs.len()`. -/
def listSlice {α : Type} (xs : List α) (a b : Nat) : RResult (List α) :=
  if a ≤ b ∧ b ≤ xs.length then
    .ok ((xs.drop a).take (b - a))
  else
    .error (.panicked "slice index out of range")

/-- `&xs[..n]`: panics unless `n <= xs.len()`. -/
def listTake {α : Type} (xs : List α) (n : Nat) : RResult (List α) :=
  if n ≤ xs.length then
    .ok (xs.take n)
  else
    .error (.panicked "slice end index out of range")

/-- `read_buffer`: carves `a_data[offset..offset + length]` out of the
message body; the slice indexing panics when the range passes the end of
the body. -/
def readBuffer (buf : IpcBuffer) (aData : List Nat) : RResult (List Nat) :=
  let startOffset := buf.offset
  let endOffset := startOffset + buf.length
  if endOffset ≤ aData.length then
    .ok ((aData.drop startOffset).take buf.length)
  else
    .error (.panicked "slice range out of bounds")

/-- `ArrayData`: type, length, offset, buffers, optional validity buffer,
children (a dictionary's values array is stored as its single child, as
`create_dictionary_array` does). -/
inductive ArrayData where
  | mk (dataType : DataType) (len : Nat) (offset : Nat)
      (buffers : List (List Nat)) (nullBitBuffer : Option (List Nat))
      (childData : List ArrayData)

def ArrayData.dataTypeOf : ArrayData → DataType
  | .mk d _ _ _ _ _ => d

def ArrayData.lenOf : ArrayData → Nat
  | .mk _ l _ _ _ _ => l

def ArrayData.buffersOf : ArrayData → List (List Nat)
  | .mk _ _ _ b _ _ => b

def ArrayData.childDataOf : ArrayData → List ArrayData
  | .mk _ _ _ _ _ c => c

/-- The external cast hook `compute::cast` (with the subsequent
`.data().clone()`): maps the 64-bit-materialized array to the declared
data type. -/
abbrev CastFn := ArrayData → DataType → ArrayData

/-- `(null_count > 0).then(|| buffers[0].clone())`: reads `buffers[0]`
only when the null count is positive (panicking if it is missing). -/
def nullBitBufferOpt (nullCount : Nat) (buffers : List (List Nat)) :
    RResult (Option (List Nat)) :=
  if nullCount > 0 then do
    let b ← listIndex buffers 0
    pure (some b)
  else
    pure none

/-- `create_primitive_array`: builds the `ArrayData` for flat types. The
builder chains (`ArrayData::builder ... build / build_unchecked`) are
modelled as the plain construction; validation is external. For the
narrow 8/16/32-bit integer group (and Float32) the 64-bit quirk branch
fires exactly when `buffers[1].len() / 8 == length && length != 1`, in
which case the buffer is materialized at 64 bits and passed to the cast
hook. -/
def createPrimitiveArray (cast : CastFn) (fieldNode : FieldNode)
    (dataType : DataType) (buffers : List (List Nat)) : RResult ArrayData := do
  let length := fieldNode.length
  let nullCount := fieldNode.nullCount
  match dataType with
  | .Utf8 | .Binary | .LargeBinary | .LargeUtf8 => do
      let bs ← listSlice buffers 1 3
      let nb ← nullBitBufferOpt nullCount buffers
      pure (.mk dataType length 0 bs nb [])
  | .FixedSizeBinary _ => do
      let bs ← listSlice buffers 1 2
      let nb ← nullBitBufferOpt nullCount buffers
      pure (.mk dataType length 0 bs nb [])
  | .Int8 | .Int16 | .Int32 | .UInt8 | .UInt16 | .UInt32
  | .Time32 _ | .Date32 | .Interval .YearMonth => do
      let b1 ← listIndex buffers 1
      if b1.length / 8 == length && length != 1 then do
        let bs ← listSlice buffers 1 buffers.length
        let nb ← nullBitBufferOpt nullCount buffers
        let data := ArrayData.mk .Int64 length 0 bs nb []
        pure (cast data dataType)
      else do
        let bs ← listSlice buffers 1 buffers.length
        let nb ← nullBitBufferOpt nullCount buffers
        pure (.mk dataType length 0 bs nb [])
  | .Float32 => do
      let b1 ← listIndex buffers 1
      if b1.length / 8 == length && length != 1 then do
        let bs ← listSlice buffers 1 buffers.length
        let nb ← nullBitBufferOpt nullCount buffers
        let data := ArrayData.mk .Float64 length 0 bs nb []
        pure (cast data dataType)
      else do
        let bs ← listSlice buffers 1 buffers.length
        let nb ← nullBitBufferOpt nullCount buffers
        pure (.mk dataType length 0 bs nb [])
  | .Boolean | .Int64 | .UInt64 | .Float64 | .Time64 _ | .Timestamp _ _
  | .Date64 | .Duration _ | .Interval .DayTime
  | .Interval .MonthDayNano => do
      let bs ← listSlice buffers 1 buffers.length
      let nb ← nullBitBufferOpt nullCount buffers
      pure (.mk dataType length 0 bs nb [])
  | .Decimal _ _ => do
      let bs ← listSlice buffers 1 2
      let nb ← nullBitBufferOpt nullCount buffers
      pure (.mk dataType length 0 bs nb [])
  | _ => .error (.panicked "Data type either unsupported or not primitive")

/-- `create_list_array`: list/large-list/map use the offsets buffer and
one child, fixed-size-list only the validity and one child; any other
type panics. -/
def createListArray (fieldNode : FieldNode) (dataType : DataType)
    (buffers : List (List Nat)) (childArray : ArrayData) :
    RResult ArrayData :=
  match dataType with
  | .List _ | .LargeList _ => do
      let nullCount := fieldNode.nullCount
      let bs ← listSlice buffers 1 2
      let nb ← nullBitBufferOpt nullCount buffers
      pure (.mk dataType fieldNode.length 0 bs nb [childArray])
  | .FixedSizeList _ _ => do
      let nullCount := fieldNode.nullCount
      let bs ← listSlice buffers 1 1
      let nb ← nullBitBufferOpt nullCount buffers
      pure (.mk dataType fieldNode.length 0 bs nb [childArray])
  | .Map _ _ => do
      let nullCount := fieldNode.nullCount
      let bs ← listSlice buffers 1 2
      let nb ← nullBitBufferOpt nullCount buffers
      pure (.mk dataType fieldNode.length 0 bs nb [childArray])
  | _ => .error (.panicked "Cannot create list or map array")

/-- `create_dictionary_array`: the indices buffer plus the shared values
array as the single child; non-dictionary types are unreachable. -/
def createDictionaryArray (fieldNode : FieldNode) (dataType : DataType)
    (buffers : List (List Nat)) (valueArray : ArrayData) :
    RResult ArrayData :=
  match dataType with
  | .Dictionary _ _ => do
      let bs ← listSlice buffers 1 2
      let nb ← nullBitBufferOpt fieldNode.nullCount buffers
      pure (.mk dataType fieldNode.length 0 bs nb [valueArray])
  | _ => .error (.panicked "unreachable: cannot create dictionary array")

/-- Modelled: external `StructArray::from` assembles a struct array from
field/array pairs (and an optional null buffer); the reconstruction
claims depend only on the cursor arithmetic, not on this assembly. -/
def structArrayFrom (pairs : List (Field × ArrayData))
    (nullBuffer : Option (List Nat)) : ArrayData :=
  ArrayData.mk (.Struct (pairs.map Prod.fst))
    ((pairs.head?.map (fun p => p.2.lenOf)).getD 0) 0 [] nullBuffer
    (pairs.map Prod.snd)

/-- Modelled: external `UnionArray::try_new` assembles the union array
from the sliced type-id bytes, the optional offsets bytes and the
children; the spec describes no reconstruction-relevant failure for it,
so assembly succeeds. -/
def unionArrayTryNew (fieldTypeIds : List Int) (typeIds : List Nat)
    (valueOffsets : Option (List Nat))
    (children : List (Field × ArrayData)) : RResult ArrayData :=
  .ok (ArrayData.mk
    (.Union (children.map Prod.fst) fieldTypeIds
      (match valueOffsets with
       | some _ => .Dense
       | none => .Sparse))
    0 0
    (typeIds :: (match valueOffsets with
                 | some o => [o]
                 | none => []))
    none (children.map Prod.snd))

/-- Assoc-list view of the `HashMap<i64, ArrayRef>` dictionary registry. -/
def lookupById (m : List (Int × ArrayData)) (id : Int) : Option ArrayData :=
  match m with
  | [] => none
  | (k, v) :: rest => if k == id then some v else lookupById rest id

mutual
/-- `create_array`: the recursive type-directed walk that consumes field
nodes and buffer descriptors and produces an `ArrayData` together with
the advanced `(node_index, buffer_index)` cursors. Translated branch by
branch from the source, in source order of effects. -/
def createArray (cast : CastFn) (nodes : List FieldNode) (field : Field)
    (data : List Nat) (buffers : List IpcBuffer)
    (dictionariesById : List (Int × ArrayData))
    (nodeIndex bufferIndex : Nat) (metadata : MetadataVersion) :
    RResult (ArrayData × Nat × Nat) :=
  match field with
  | .mk fname dataType _ fdictId =>
    match dataType with
    | .Utf8 | .Binary | .LargeBinary | .LargeUtf8 => do
        let node ← listIndex nodes nodeIndex
        let descs ← listSlice buffers bufferIndex (bufferIndex + 3)
        let bufs ← descs.mapM (fun b => readBuffer b data)
        let array ← createPrimitiveArray cast node dataType bufs
        pure (array, nodeIndex + 1, bufferIndex + 3)
    | .FixedSizeBinary _ => do
        let node ← listIndex nodes nodeIndex
        let descs ← listSlice buffers bufferIndex (bufferIndex + 2)
        let bufs ← descs.mapM (fun b => readBuffer b data)
        let array ← createPrimitiveArray cast node dataType bufs
        pure (array, nodeIndex + 1, bufferIndex + 2)
    | .List listField | .LargeList listField | .Map listField _ => do
        let listNode ← listIndex nodes nodeIndex
        let descs ← listSlice buffers bufferIndex (bufferIndex + 2)
        let listBuffers ← descs.mapM (fun b => readBuffer b data)
        let triple ← createArray cast nodes listField data buffers
          dictionariesById (nodeIndex + 1) (bufferIndex + 2) metadata
        let arr ← createListArray listNode dataType listBuffers triple.1
        pure (arr, triple.2.1, triple.2.2)
    | .FixedSizeList listField _ => do
        let listNode ← listIndex nodes nodeIndex
        let descs ← listSlice buffers bufferIndex (bufferIndex + 1)
        let listBuffers ← descs.mapM (fun b => readBuffer b data)
        let triple ← createArray cast nodes listField data buffers
          dictionariesById (nodeIndex + 1) (bufferIndex + 1) metadata
        let arr ← createListArray listNode dataType listBuffers triple.1
        pure (arr, triple.2.1, triple.2.2)
    | .Struct structFields => do
        let structNode ← listIndex nodes nodeIndex
        let d0 ← listIndex buffers bufferIndex
        let nullBuffer ← readBuffer d0 data
        let res ← createArrayFields cast nodes structFields data buffers
          dictionariesById (nodeIndex + 1) (bufferIndex + 1) metadata
        let structArray :=
          if structNode.nullCount > 0 then
            structArrayFrom res.1 (some nullBuffer)
          else
            structArrayFrom res.1 none
        pure (structArray, res.2.1, res.2.2)
    | .Dictionary _ _ => do
        let indexNode ← listIndex nodes nodeIndex
        let descs ← listSlice buffers bufferIndex (bufferIndex + 2)
        let indexBuffers ← descs.mapM (fun b => readBuffer b data)
        let dictId ←
          match fdictId with
          | some id => Except.ok id
          | none => Except.error (AError.ioError
              ("Field " ++ fname ++ " does not have dict id"))
        let valueArray ←
          match lookupById dictionariesById dictId with
          | some v => Except.ok v
          | none => Except.error (AError.ioError
              ("Cannot find a dictionary batch with dict id: " ++
                toString dictId))
        let arr ← createDictionaryArray indexNode dataType indexBuffers
          valueArray
        pure (arr, nodeIndex + 1, bufferIndex + 2)
    | .Union fields fieldTypeIds mode => do
        let unionNode ← listIndex nodes nodeIndex
        let len := unionNode.length
        let bi0 ←
          if metadata.lt .V5 then do
            let d ← listIndex buffers bufferIndex
            let _ ← readBuffer d data
            pure (bufferIndex + 1)
          else
            pure bufferIndex
        let dTid ← listIndex buffers bi0
        let tidBuf ← readBuffer dTid data
        let typeIds ← listTake tidBuf len
        let bi1 := bi0 + 1
        let stage ←
          match mode with
          | .Dense => do
              let d ← listIndex buffers bi1
              let buffer ← readBuffer d data
              let offs ← listTake buffer (len * 4)
              pure (some offs, bi1 + 1)
          | .Sparse => pure (none, bi1)
        let res ← createArrayFields cast nodes fields data buffers
          dictionariesById (nodeIndex + 1) stage.2 metadata
        let arr ← unionArrayTryNew fieldTypeIds typeIds stage.1 res.1
        pure (arr, res.2.1, res.2.2)
    | .Null => do
        let node ← listIndex nodes nodeIndex
        let length := node.length
        let nullCount := node.nullCount
        if length ≠ nullCount then
          .error (.ioError ("Field " ++ fname ++
            " of NullArray has unequal null_count " ++ toString nullCount ++
            " and len " ++ toString length))
        else
          pure (ArrayData.mk dataType length 0 [] none [],
            nodeIndex + 1, bufferIndex)
    | _ => do
        let node ← listIndex nodes nodeIndex
        let descs ← listSlice buffers bufferIndex (bufferIndex + 2)
        let bufs ← descs.mapM (fun b => readBuffer b data)
        let array ← createPrimitiveArray cast node dataType bufs
        pure (array, nodeIndex + 1, bufferIndex + 2)

/-- Sequential walk over a field list, threading the cursors, as the
`for` loops over struct fields and union variants do. -/
def createArrayFields (cast : CastFn) (nodes : List FieldNode)
    (fields : List Field) (data : List Nat) (buffers : List IpcBuffer)
    (dictionariesById : List (Int × ArrayData))
    (nodeIndex bufferIndex : Nat) (metadata : MetadataVersion) :
    RResult (List (Field × ArrayData) × Nat × Nat) :=
  match fields with
  | [] => pure ([], nodeIndex, bufferIndex)
  | f :: rest => do
      let triple ← createArray cast nodes f data buffers dictionariesById
        nodeIndex bufferIndex metadata
      let res ← createArrayFields cast nodes rest data buffers
        dictionariesById triple.2.1 triple.2.2 metadata
      pure ((f, triple.1) :: res.1, res.2.1, res.2.2)
end

mutual
/-- `skip_field`: advances the cursors for an unselected field without
reading buffers. Note: it receives NO metadata version, and its union
case consumes one buffer for the type ids (plus one for dense offsets)
but never the pre-V5 validity buffer that `create_array` consumes. -/
def skipField (nodes : List FieldNode) (field : Field) (data : List Nat)
    (buffers : List IpcBuffer) (dictionariesById : List (Int × ArrayData))
    (nodeIndex bufferIndex : Nat) : RResult (Nat × Nat) :=
  match field with
  | .mk _ dataType _ _ =>
    match dataType with
    | .Utf8 | .Binary | .LargeBinary | .LargeUtf8 =>
        pure (nodeIndex + 1, bufferIndex + 3)
    | .FixedSizeBinary _ => pure (nodeIndex + 1, bufferIndex + 2)
    | .List listField | .LargeList listField | .Map listField _ =>
        skipField nodes listField data buffers dictionariesById
          (nodeIndex + 1) (bufferIndex + 2)
    | .FixedSizeList listField _ =>
        skipField nodes listField data buffers dictionariesById
          (nodeIndex + 1) (bufferIndex + 1)
    | .Struct structFields =>
        skipFields nodes structFields data buffers dictionariesById
          (nodeIndex + 1) (bufferIndex + 1)
    | .Dictionary _ _ => pure (nodeIndex + 1, bufferIndex + 2)
    | .Union fields _ mode =>
        let bi :=
          match mode with
          | .Dense => bufferIndex + 2
          | .Sparse => bufferIndex + 1
        skipFields nodes fields data buffers dictionariesById
          (nodeIndex + 1) bi
    | .Null => pure (nodeIndex + 1, bufferIndex)
    | _ => pure (nodeIndex + 1, bufferIndex + 2)

/-- Skip walk over a field list, threading the cursors. -/
def skipFields (nodes : List FieldNode) (fields : List Field)
    (data : List Nat) (buffers : List IpcBuffer)
    (dictionariesById : List (Int × ArrayData))
    (nodeIndex bufferIndex : Nat) : RResult (Nat × Nat) :=
  match fields with
  | [] => pure (nodeIndex, bufferIndex)
  | f :: rest => do
      let t ← skipField nodes f data buffers dictionariesById nodeIndex
        bufferIndex
      skipFields nodes rest data buffers dictionariesById t.1 t.2
end

/-- A concrete cast hook used for evaluations: identity on the array. -/
def castId : CastFn := fun a _ => a

/-- Concrete sparse union field with one Int32 variant, for the skip-walk
comparison. -/
def exUnionField : Field :=
  Field.mk "u" (.Union [Field.mk "a" .Int32 false none] [0] .Sparse) true none

/-- Field nodes of the concrete union column: the union node and its
Int32 child, each of length 1 with no nulls. -/
def exNodes : List FieldNode := [⟨1, 0⟩, ⟨1, 0⟩]

/-- Buffer descriptors of the concrete union column as a pre-V5 writer
lays them out: union validity, type ids, child validity, child values. -/
def exBuffers : List IpcBuffer := [⟨0, 1⟩, ⟨1, 1⟩, ⟨2, 1⟩, ⟨3, 4⟩]

/-- Message body for the concrete union column. -/
def exData : List Nat := [255, 0, 255, 0, 0, 0, 0]

/-- C1: the skip walk does NOT advance `buffer_index` by the same amount
as the decode walk for union fields under metadata versions before V5.
On the same sparse-union column, `create_array` under V4 consumes the
extra validity buffer and ends at buffer cursor 4, while `skip_field`
(which receives no metadata version) ends at 3; under V5 the decode walk
ends at 3 and the two agree. So a V4 projection that skips a union field
leaves the buffer cursor one short, exactly what the claim rules out. -/
theorem C1_skip_walk_union_v4_divergence :
    (createArray castId exNodes exUnionField exData exBuffers [] 0 0
        .V4).map (fun t => (t.2.1, t.2.2)) = .ok (2, 4)
    ∧ skipField exNodes exUnionField exData exBuffers [] 0 0 = .ok (2, 3)
    ∧ (createArray castId exNodes exUnionField exData exBuffers [] 0 0
        .V5).map (fun t => (t.2.1, t.2.2)) = .ok (2, 3)
    ∧ (4 : Nat) ≠ 3 :=
  ⟨rfl, rfl, rfl, by decide⟩

/-- The 64-bit materialization type of the narrow-width quirk branch:
Float32 goes through Float64, the integer group through Int64. -/
def quirkTarget : DataType → DataType
  | .Float32 => .Float64
  | _ => .Int64

/-- The data types handled by the quirk branches of
`create_primitive_array` (the 8/16/32-bit integer group and Float32). -/
def narrowQuirkGroup : DataType → Bool
  | .Int8 | .Int16 | .Int32 | .UInt8 | .UInt16 | .UInt32
  | .Time32 _ | .Date32 | .Interval .YearMonth | .Float32 => true
  | _ => false

theorem listSlice_one_to_end {α : Type} (b0 : α) (tl : List α) :
    listSlice (b0 :: tl) 1 (b0 :: tl).length = .ok tl := by
  simp [listSlice]

theorem nullBitBufferOpt_cons (nc : Nat) (b0 : List Nat)
    (tl : List (List Nat)) :
    nullBitBufferOpt nc (b0 :: tl) =
      .ok (if nc > 0 then some b0 else none) := by
  by_cases h : nc > 0 <;>
    simp [nullBitBufferOpt, listIndex, h, pure, Except.pure, bind,
      Except.bind]

/-- C5: for every type in the narrow 8/16/32-bit integer group (and
Float32), `create_primitive_array` takes the 64-bit-materialize-then-cast
path exactly when `values_buffer_len / 8 == length && length != 1`:
under that condition the result is the cast hook applied to the array
materialized at the 64-bit target type, and otherwise the array is built
directly at the declared type. -/
theorem C5_narrow_int_upcast_quirk (cast : CastFn) (node : FieldNode)
    (dt : DataType) (hdt : narrowQuirkGroup dt = true)
    (b0 b1 : List Nat) (rest : List (List Nat)) :
    (b1.length / 8 = node.length ∧ node.length ≠ 1 →
      createPrimitiveArray cast node dt (b0 :: b1 :: rest) =
        .ok (cast
          (ArrayData.mk (quirkTarget dt) node.length 0 (b1 :: rest)
            (if node.nullCount > 0 then some b0 else none) [])
          dt))
    ∧ (¬(b1.length / 8 = node.length ∧ node.length ≠ 1) →
      createPrimitiveArray cast node dt (b0 :: b1 :: rest) =
        .ok (ArrayData.mk dt node.length 0 (b1 :: rest)
          (if node.nullCount > 0 then some b0 else none) [])) := by
  have hslice := listSlice_one_to_end b0 (b1 :: rest)
  have hnull := nullBitBufferOpt_cons node.nullCount b0 (b1 :: rest)
  constructor
  · rintro ⟨h1, h2⟩
    cases dt <;>
      try simp_all [narrowQuirkGroup, createPrimitiveArray, listIndex,
        quirkTarget, bind, Except.bind, pure, Except.pure]
    all_goals
      rename_i u
      cases u <;>
        simp_all [narrowQuirkGroup, createPrimitiveArray, listIndex,
          quirkTarget, bind, Except.bind, pure, Except.pure]
  · intro hno
    rcases Decidable.em (b1.length / 8 = node.length) with h1 | h1
    · have h2 : node.length = 1 := by
        by_contra h2
        exact hno ⟨h1, h2⟩
      cases dt <;>
        try simp_all [narrowQuirkGroup, createPrimitiveArray, listIndex,
          bind, Except.bind, pure, Except.pure]
      all_goals
        rename_i u
        cases u <;>
          simp_all [narrowQuirkGroup, createPrimitiveArray, listIndex,
            bind, Except.bind, pure, Except.pure]
    · cases dt <;>
        try simp_all [narrowQuirkGroup, createPrimitiveArray, listIndex,
          bind, Except.bind, pure, Except.pure]
      all_goals
        rename_i u
        cases u <;>
          simp_all [narrowQuirkGroup, createPrimitiveArray, listIndex,
            bind, Except.bind, pure, Except.pure]

/-- Witness for C5 at the spec scenario S7: an Int32 column of length 8
with a 64-byte values buffer goes through Int64 and the cast hook, while
an Int32 column of length 1 with an 8-byte values buffer is built
directly at 32-bit width. -/
theorem C5_narrow_int_upcast_quirk_witness :
    createPrimitiveArray castId ⟨8, 0⟩ .Int32
        ([] :: List.replicate 64 0 :: []) =
      .ok (castId
        (ArrayData.mk .Int64 8 0 [List.replicate 64 0] none []) .Int32)
    ∧ createPrimitiveArray castId ⟨1, 0⟩ .Int32
        ([] :: List.replicate 8 0 :: []) =
      .ok (ArrayData.mk .Int32 1 0 [List.replicate 8 0] none []) := by
  constructor
  · have h := (C5_narrow_int_upcast_quirk castId ⟨8, 0⟩ .Int32 rfl
      [] (List.replicate 64 0) []).1 ⟨by simp, by decide⟩
    simpa [quirkTarget] using h
  · have h := (C5_narrow_int_upcast_quirk castId ⟨1, 0⟩ .Int32 rfl
      [] (List.replicate 8 0) []).2 (by simp)
    simpa using h

end Ipc

namespace Ipc

/-- `Schema`: its field list (the part the reader walks). -/
structure Schema where
  fields : List Field

/-- `ipc::RecordBatch` descriptor: optional field-node and
buffer-descriptor lists (absent when the FlatBuffers accessors return
nothing) and the row count `length()`. -/
structure IpcRecordBatch where
  nodes : Option (List FieldNode)
  buffers : Option (List IpcBuffer)
  length : Nat

/-- `RecordBatch`: schema, columns, row count. -/
structure RecordBatch where
  schema : Schema
  columns : List ArrayData
  rowCount : Nat

/-- Modelled from the spec: `Schema::project` selects the fields at the
projection indices, failing when an index is out of range. -/
def schemaProject (schema : Schema) (projection : List Nat) :
    RResult Schema := do
  let fields ← projection.mapM (fun i =>
    match schema.fields.get? i with
    | some f => Except.ok f
    | none => Except.error
        (AError.invalidArgumentError "projection index out of range"))
  pure ⟨fields⟩

/-- Modelled: `RecordBatch::try_new_with_options` with the row count set;
its validation is external to the provided sources, so construction
succeeds. -/
def recordBatchTryNewWithOptions (schema : Schema)
    (columns : List ArrayData) (rowCount : Nat) : RResult RecordBatch :=
  .ok ⟨schema, columns, rowCount⟩

/-- The projection loop of `read_record_batch`: a selected field is
decoded with `create_array`, an unselected one advanced with
`skip_field`; both thread the two cursors. -/
def readProjectedFields (cast : CastFn) (fieldNodes : List FieldNode)
    (buf : List Nat) (buffers : List IpcBuffer)
    (dictionariesById : List (Int × ArrayData))
    (metadata : MetadataVersion) (projection : List Nat) :
    List Field → Nat → Nat → Nat → RResult (List ArrayData × Nat × Nat)
  | [], _, nodeIndex, bufferIndex => pure ([], nodeIndex, bufferIndex)
  | f :: rest, idx, nodeIndex, bufferIndex =>
      if projection.contains idx then do
        let triple ← createArray cast fieldNodes f buf buffers
          dictionariesById nodeIndex bufferIndex metadata
        let res ← readProjectedFields cast fieldNodes buf buffers
          dictionariesById metadata projection rest (idx + 1)
          triple.2.1 triple.2.2
        pure (triple.1 :: res.1, res.2.1, res.2.2)
      else do
        let t ← skipField fieldNodes f buf buffers dictionariesById
          nodeIndex bufferIndex
        readProjectedFields cast fieldNodes buf buffers dictionariesById
          metadata projection rest (idx + 1) t.1 t.2

/-- `read_record_batch`: unwraps the node and buffer lists, then walks
the schema fields from cursors `(0, 0)`, with or without projection. -/
def readRecordBatch (cast : CastFn) (buf : List Nat)
    (batch : IpcRecordBatch) (schema : Schema)
    (dictionariesById : List (Int × ArrayData))
    (projection : Option (List Nat)) (metadata : MetadataVersion) :
    RResult RecordBatch := do
  let buffers ←
    match batch.buffers with
    | some b => Except.ok b
    | none =>
        Except.error (AError.ioError "Unable to get buffers from IPC RecordBatch")
  let fieldNodes ←
    match batch.nodes with
    | some n => Except.ok n
    | none =>
        Except.error (AError.ioError "Unable to get field nodes from IPC RecordBatch")
  match projection with
  | some projection => do
      let res ← readProjectedFields cast fieldNodes buf buffers
        dictionariesById metadata projection schema.fields 0 0 0
      let projected ← schemaProject schema projection
      recordBatchTryNewWithOptions projected res.1 batch.length
  | none => do
      let res ← createArrayFields cast fieldNodes schema.fields buf
        buffers dictionariesById 0 0 metadata
      recordBatchTryNewWithOptions schema (res.1.map Prod.snd) batch.length

/-- True on results that are a Rust panic. -/
def isPanic {α : Type} : RResult α → Bool
  | .error (.panicked _) => true
  | _ => false

/-- True on results that are an `ArrowError::IoError` (the spec's
DecodeError). -/
def isIoError {α : Type} : RResult α → Bool
  | .error (.ioError _) => true
  | _ => false

end Ipc

namespace Ipc

/-- Schema with one Int64 column, for the malformed-input evaluations. -/
def c6Schema : Schema := ⟨[Field.mk "c" .Int64 false none]⟩

/-- C6 counterexample: the claim says buffer-descriptor overruns and
exhausted node/buffer lists produce a DecodeError result and no panic.
On a one-column Int64 batch whose values descriptor `(0, 16)` passes the
end of a 4-byte body, and on one whose node and buffer lists are empty,
`read_record_batch` PANICS (out-of-bounds slice or index) instead of
returning an IoError/DecodeError. -/
theorem C6_counterexample :
    isPanic (readRecordBatch castId [0, 0, 0, 0]
        ⟨some [⟨1, 0⟩], some [⟨0, 1⟩, ⟨0, 16⟩], 1⟩ c6Schema [] none .V5)
      = true
    ∧ isIoError (readRecordBatch castId [0, 0, 0, 0]
        ⟨some [⟨1, 0⟩], some [⟨0, 1⟩, ⟨0, 16⟩], 1⟩ c6Schema [] none .V5)
      = false
    ∧ isPanic (readRecordBatch castId [0, 0, 0, 0]
        ⟨some [], some [], 1⟩ c6Schema [] none .V5) = true
    ∧ isIoError (readRecordBatch castId [0, 0, 0, 0]
        ⟨some [], some [], 1⟩ c6Schema [] none .V5) = false :=
  ⟨rfl, rfl, rfl, rfl⟩

/-- C6 amended: malformed inputs of the claimed kinds make the decoder
PANIC rather than return a DecodeError, and (by the result type) no
partial batch is produced either way. Part one: whenever the node list is
exhausted at the current cursor, `create_array` panics for EVERY field
data type. Part two: whenever a buffer descriptor of a primitive column
extends past the end of the body, `read_record_batch` panics. -/
theorem C6_amended_overrun_panics (cast : CastFn) :
    (∀ (nodes : List FieldNode) (field : Field) (data : List Nat)
        (buffers : List IpcBuffer) (dicts : List (Int × ArrayData))
        (ni bi : Nat) (md : MetadataVersion),
        nodes.length ≤ ni →
        isPanic (createArray cast nodes field data buffers dicts ni bi md)
          = true)
    ∧ (∀ (fname : String) (nb : Bool) (di : Option Int) (n : FieldNode)
        (d0 d1 : IpcBuffer) (data : List Nat) (rc : Nat)
        (dicts : List (Int × ArrayData)) (md : MetadataVersion),
        d0.offset + d0.length ≤ data.length →
        data.length < d1.offset + d1.length →
        isPanic (readRecordBatch cast data ⟨some [n], some [d0, d1], rc⟩
          ⟨[Field.mk fname .Int64 nb di]⟩ dicts none md) = true) := by
  constructor
  · intro nodes field data buffers dicts ni bi md h
    have hidx : nodes[ni]? = none := List.getElem?_eq_none h
    rcases field with ⟨fname, dt, nl, di⟩
    cases dt <;>
      simp [createArray, listIndex, hidx, isPanic, bind, Except.bind]
  · intro fname nb di n d0 d1 data rc dicts md h0 h1
    have hr0 : readBuffer d0 data = .ok ((data.drop d0.offset).take d0.length) := by
      simp [readBuffer, h0]
    have hr1 : readBuffer d1 data =
        (.error (.panicked "slice range out of bounds") : RResult (List Nat)) := by
      simp [readBuffer]
      omega
    simp [readRecordBatch, createArrayFields, createArray, listIndex,
      listSlice, List.mapM.loop, hr0, hr1, isPanic, bind, Except.bind]

/-- Witness for the amended C6: the two concrete malformed batches of the
counterexample are covered by the universal statements. -/
theorem C6_amended_overrun_panics_witness :
    isPanic (createArray castId [] (Field.mk "c" .Int64 false none)
        [0, 0, 0, 0] [] [] 0 0 .V5) = true
    ∧ isPanic (readRecordBatch castId [0, 0, 0, 0]
        ⟨some [⟨1, 0⟩], some [⟨0, 1⟩, ⟨0, 16⟩], 1⟩
        ⟨[Field.mk "c" .Int64 false none]⟩ [] none .V5) = true :=
  ⟨(C6_amended_overrun_panics castId).1 [] (Field.mk "c" .Int64 false none)
      [0, 0, 0, 0] [] [] 0 0 .V5 (by decide),
   (C6_amended_overrun_panics castId).2 "c" false none ⟨1, 0⟩ ⟨0, 1⟩ ⟨0, 16⟩
      [0, 0, 0, 0] 1 [] .V5 (by decide) (by decide)⟩

/-- C7: decoding errors that ARE reported as errors. A Null column whose
field node has `length != null_count` makes `create_array` (and hence
`read_record_batch`) fail with the descriptive IoError, and a
dictionary-typed field whose dictionary id is absent from the registry
fails with the descriptive IoError; no batch is produced, since the error
short-circuits the walk. Stated at both the `create_array` and the
`read_record_batch` level. -/
theorem C7_null_node_and_unknown_dict_errors (cast : CastFn) :
    (∀ (nodes : List FieldNode) (fname : String) (nb : Bool)
        (di : Option Int) (data : List Nat) (buffers : List IpcBuffer)
        (dicts : List (Int × ArrayData)) (ni bi : Nat)
        (md : MetadataVersion) (n : FieldNode),
        nodes[ni]? = some n →
        n.length ≠ n.nullCount →
        createArray cast nodes (Field.mk fname .Null nb di) data buffers
            dicts ni bi md =
          .error (.ioError ("Field " ++ fname ++
            " of NullArray has unequal null_count " ++ toString n.nullCount ++
            " and len " ++ toString n.length)))
    ∧ (∀ (fname : String) (nb : Bool) (di : Option Int) (data : List Nat)
        (n : FieldNode) (rest : List FieldNode)
        (buffers : List IpcBuffer) (rc : Nat)
        (dicts : List (Int × ArrayData)) (md : MetadataVersion),
        n.length ≠ n.nullCount →
        readRecordBatch cast data ⟨some (n :: rest), some buffers, rc⟩
            ⟨[Field.mk fname .Null nb di]⟩ dicts none md =
          .error (.ioError ("Field " ++ fname ++
            " of NullArray has unequal null_count " ++ toString n.nullCount ++
            " and len " ++ toString n.length)))
    ∧ (∀ (nodes : List FieldNode) (fname : String) (kt vt : DataType)
        (nb : Bool) (id : Int) (data : List Nat)
        (buffers : List IpcBuffer) (dicts : List (Int × ArrayData))
        (ni bi : Nat) (md : MetadataVersion) (n : FieldNode)
        (descs : List IpcBuffer) (bufs : List (List Nat)),
        nodes[ni]? = some n →
        listSlice buffers bi (bi + 2) = .ok descs →
        descs.mapM (fun b => readBuffer b data) = .ok bufs →
        lookupById dicts id = none →
        createArray cast nodes
            (Field.mk fname (.Dictionary kt vt) nb (some id)) data buffers
            dicts ni bi md =
          .error (.ioError ("Cannot find a dictionary batch with dict id: "
            ++ toString id)))
    ∧ (∀ (fname : String) (kt vt : DataType) (nb : Bool) (id : Int)
        (data : List Nat) (n : FieldNode) (rest : List FieldNode)
        (d0 d1 : IpcBuffer) (drest : List IpcBuffer) (rc : Nat)
        (dicts : List (Int × ArrayData)) (md : MetadataVersion)
        (v0 v1 : List Nat),
        readBuffer d0 data = .ok v0 →
        readBuffer d1 data = .ok v1 →
        lookupById dicts id = none →
        readRecordBatch cast data
            ⟨some (n :: rest), some (d0 :: d1 :: drest), rc⟩
            ⟨[Field.mk fname (.Dictionary kt vt) nb (some id)]⟩ dicts none
            md =
          .error (.ioError ("Cannot find a dictionary batch with dict id: "
            ++ toString id))) := by
  refine ⟨?_, ?_, ?_, ?_⟩
  · intro nodes fname nb di data buffers dicts ni bi md n hget h
    simp [createArray, listIndex, hget, h, bind, Except.bind]
  · intro fname nb di data n rest buffers rc dicts md h
    simp [readRecordBatch, createArrayFields, createArray, listIndex, h,
      bind, Except.bind]
  · intro nodes fname kt vt nb id data buffers dicts ni bi md n descs bufs
      hget hslice hbufs hlook
    have hbufs2 : List.mapM.loop (fun b => readBuffer b data) descs [] =
        .ok bufs := hbufs
    simp [createArray, listIndex, hget, hslice, hbufs2, hlook, bind,
      Except.bind]
  · intro fname kt vt nb id data n rest d0 d1 drest rc dicts md v0 v1
      h0 h1 hlook
    have hslice : listSlice (d0 :: d1 :: drest) 0 (0 + 2) =
        .ok [d0, d1] := by
      simp [listSlice]
    simp [readRecordBatch, createArrayFields, createArray, listIndex,
      List.mapM.loop, hslice, h0, h1, hlook, bind, Except.bind, pure,
      Except.pure]

/-- Witness for C7: a Null column whose node is `(length 3, null_count 1)`
and a dictionary column with the unregistered id 7, both failing with the
exact descriptive messages. -/
theorem C7_null_node_and_unknown_dict_errors_witness :
    readRecordBatch castId [] ⟨some [⟨3, 1⟩], some [], 1⟩
        ⟨[Field.mk "f4" .Null true none]⟩ [] none .V5 =
      .error (.ioError
        "Field f4 of NullArray has unequal null_count 1 and len 3")
    ∧ readRecordBatch castId [0, 0, 0, 0, 0, 0, 0, 0]
        ⟨some [⟨3, 0⟩], some [⟨0, 1⟩, ⟨1, 3⟩], 3⟩
        ⟨[Field.mk "f11" (.Dictionary .Int8 .Utf8) false (some 7)]⟩ []
        none .V5 =
      .error (.ioError "Cannot find a dictionary batch with dict id: 7") := by
  constructor
  · have h := (C7_null_node_and_unknown_dict_errors castId).2.1 "f4" true
      none [] ⟨3, 1⟩ [] [] 1 [] .V5 (by decide)
    simpa using h
  · have h := (C7_null_node_and_unknown_dict_errors castId).2.2.2 "f11"
      .Int8 .Utf8 false 7 [0, 0, 0, 0, 0, 0, 0, 0] ⟨3, 0⟩ [] ⟨0, 1⟩ ⟨1, 3⟩
      [] 3 [] .V5 [0] [0, 0, 0] (by rfl) (by rfl) (by rfl)
    simpa using h

end Ipc

namespace Ipc

/-- Outcomes of `Message::header_type()` that the stream reader
distinguishes (`Other` stands for every remaining header kind, handled by
the catch-all arm). -/
inductive MessageHeader where
  | NONE
  | SchemaHeader
  | DictionaryBatchHeader
  | RecordBatchHeader
  | Other
deriving DecidableEq, Repr

/-- `ipc::DictionaryBatch`: id, delta flag, and the embedded record-batch
descriptor `data()`. -/
structure IpcDictionaryBatch where
  id : Int
  isDelta : Bool
  data : Option IpcRecordBatch

/-- A decoded IPC `Message`: header kind, metadata version, body length
and the typed header accessors (`header_as_record_batch`,
`header_as_dictionary_batch`), which may be absent. -/
structure Message where
  headerType : MessageHeader
  version : MetadataVersion
  bodyLength : Nat
  recordBatch : Option IpcRecordBatch
  dictionaryBatch : Option IpcDictionaryBatch

/-- The external FlatBuffers decoder `root_as_message`. -/
abbrev RootAsMessageFn := List Nat → Except String Message

/-- Modelled from the external `Field::new` plus `Field::dict_id()`: a
freshly built field carries dict id 0, reported only for
dictionary-typed fields. -/
def fieldNew (name : String) (dataType : DataType) (nullable : Bool) :
    Field :=
  Field.mk name dataType nullable
    (match dataType with
     | .Dictionary _ _ => some 0
     | _ => none)

/-- Modelled from the spec: `Schema::fields_with_dict_id` returns the
fields bound to the given dictionary id. -/
def fieldsWithDictId (schema : Schema) (id : Int) : List Field :=
  schema.fields.filter (fun f => f.dictIdOf == some id)

/-- `HashMap::insert`: replaces a previous binding of the same id. -/
def insertById (m : List (Int × ArrayData)) (id : Int) (v : ArrayData) :
    List (Int × ArrayData) :=
  match m with
  | [] => [(id, v)]
  | (k, w) :: rest =>
      if k == id then (id, v) :: rest else (k, w) :: insertById rest id v

/-- `read_dictionary`: rejects delta batches, finds the first schema
field using the id, decodes the values array through a one-column fake
schema, and registers it (replacing any previous binding). -/
def readDictionary (cast : CastFn) (buf : List Nat)
    (batch : IpcDictionaryBatch) (schema : Schema)
    (dictionariesById : List (Int × ArrayData))
    (metadata : MetadataVersion) : RResult (List (Int × ArrayData)) := do
  if batch.isDelta then
    Except.error (AError.ioError "delta dictionary batches not supported")
  else do
    let id := batch.id
    let fieldsUsingThisDictionary := fieldsWithDictId schema id
    let firstField ←
      match fieldsUsingThisDictionary.head? with
      | some f => Except.ok f
      | none =>
          Except.error (AError.invalidArgumentError "dictionary id not found in schema")
    let dictionaryValues ←
      match firstField.dataTypeOf with
      | .Dictionary _ valueType => do
          let fakeSchema : Schema :=
            ⟨[fieldNew "" valueType firstField.nullableOf]⟩
          let batchData ←
            match batch.data with
            | some d => Except.ok d
            | none => Except.error (AError.panicked "unwrap on None")
          let recordBatch ← readRecordBatch cast buf batchData fakeSchema
            dictionariesById none metadata
          let col ← listIndex recordBatch.columns 0
          Except.ok col
      | _ =>
          Except.error (AError.invalidArgumentError "dictionary id not found in schema")
    Except.ok (insertById dictionariesById id dictionaryValues)

/-- `StreamReader` state: the remaining byte source (as the full input
plus a read position), the schema, the dictionary registry, the
`finished` flag and the captured projection. -/
structure StreamState where
  input : List Nat
  pos : Nat
  schema : Schema
  dicts : List (Int × ArrayData)
  finished : Bool
  projection : Option (List Nat × Schema)

/-- `StreamReader::is_finished`. -/
def isFinished (s : StreamState) : Bool := s.finished

/-- `read_exact` on the buffered byte source: yields the next `n` bytes
and advances the position, or fails (UnexpectedEof) when fewer than `n`
bytes remain. -/
def readExact (n : Nat) (s : StreamState) :
    Option (List Nat × StreamState) :=
  if s.pos + n ≤ s.input.length then
    some ((s.input.drop s.pos).take n, { s with pos := s.pos + n })
  else
    none

/-- `CONTINUATION_MARKER`: the four bytes `0xFFFFFFFF`. -/
def continuationMarker : List Nat := [255, 255, 255, 255]

/-- `i32::from_le_bytes`. -/
def i32FromLeBytes (bs : List Nat) : Int :=
  let v := bs.getD 0 0 + 256 * bs.getD 1 0 + 65536 * bs.getD 2 0 +
    16777216 * bs.getD 3 0
  if v < 2147483648 then (v : Int) else (v : Int) - 4294967296

/-- `meta_len as usize`: sign extension of the 32-bit value to 64 bits. -/
def usize64 (i : Int) : Nat := (i % (18446744073709551616 : Int)).toNat

/-- `StreamReader::maybe_next`. Returns the result together with the new
reader state. The tail recursion after absorbing a dictionary batch is
bounded by explicit fuel; every recursive call first consumes at least
the four-byte length prefix, so any fuel above the input length is never
exhausted on the paths the source can take. -/
def maybeNext (cast : CastFn) (rootAsMessage : RootAsMessageFn)
    (fuel : Nat) (s : StreamState) :
    RResult (Option RecordBatch) × StreamState :=
  if s.finished then
    (.ok none, s)
  else
    match fuel with
    | 0 => (.error (.panicked "recursion fuel exhausted"), s)
    | fuel + 1 =>
      match readExact 4 s with
      | none => (.ok none, { s with finished := true })
      | some (metaSize, s1) =>
        match (if metaSize == continuationMarker then
                 match readExact 4 s1 with
                 | none =>
                     Except.error (AError.ioError "failed to fill whole buffer")
                 | some r => Except.ok r
               else Except.ok (metaSize, s1)) with
        | .error e => (.error e, s1)
        | .ok (metaBytes, s2) =>
          let metaLen := i32FromLeBytes metaBytes
          if metaLen == 0 then
            (.ok none, { s2 with finished := true })
          else
            match readExact (usize64 metaLen) s2 with
            | none => (.error (.ioError "failed to fill whole buffer"), s2)
            | some (metaBuffer, s3) =>
              match rootAsMessage metaBuffer with
              | .error err =>
                  (.error (.ioError ("Unable to get root as message: " ++ err)), s3)
              | .ok message =>
                match message.headerType with
                | .SchemaHeader =>
                    (.error (.ioError "Not expecting a schema when messages are read"), s3)
                | .RecordBatchHeader =>
                  match message.recordBatch with
                  | none =>
                      (.error (.ioError "Unable to read IPC message as record batch"), s3)
                  | some batch =>
                    match readExact message.bodyLength s3 with
                    | none =>
                        (.error (.ioError "failed to fill whole buffer"), s3)
                    | some (buf, s4) =>
                      match readRecordBatch cast buf batch s4.schema
                          s4.dicts (s4.projection.map Prod.fst)
                          message.version with
                      | .error e => (.error e, s4)
                      | .ok rb => (.ok (some rb), s4)
                | .DictionaryBatchHeader =>
                  match message.dictionaryBatch with
                  | none =>
                      (.error (.ioError "Unable to read IPC message as dictionary batch"), s3)
                  | some batch =>
                    match readExact message.bodyLength s3 with
                    | none =>
                        (.error (.ioError "failed to fill whole buffer"), s3)
                    | some (buf, s4) =>
                      match readDictionary cast buf batch s4.schema
                          s4.dicts message.version with
                      | .error e => (.error e, s4)
                      | .ok newDicts =>
                          maybeNext cast rootAsMessage fuel
                            { s4 with dicts := newDicts }
                | .NONE => (.ok none, s3)
                | .Other =>
                    (.error (.ioError "Reading types other than record batches not yet supported"), s3)

end Ipc

namespace Ipc

theorem readExact_some_fields (n : Nat) (s s1 : StreamState)
    (bs : List Nat) (h : readExact n s = some (bs, s1)) :
    s1.finished = s.finished ∧ s1.pos = s.pos + n ∧ s1.input = s.input
    ∧ s1.schema = s.schema ∧ s1.dicts = s.dicts
    ∧ s1.projection = s.projection := by
  unfold readExact at h
  split at h
  · injection h with h
    injection h with h1 h2
    subst h2
    exact ⟨rfl, rfl, rfl, rfl, rfl, rfl⟩
  · exact absurd h (by simp)

/-- C8: stream termination. With the reader not yet finished, (1) an
unexpected end of input while reading the initial 4-byte length prefix
makes `maybe_next` return end-of-stream without an error and set
`finished`; (2) a zero-length message (prefix bytes 0,0,0,0) does the
same after consuming the prefix; (3) once `finished` is set,
`is_finished` reports true and every later `maybe_next` returns no batch
with the state untouched — in particular the read position does not move,
so no further record-batch data is read. -/
theorem C8_stream_termination (cast : CastFn) (ram : RootAsMessageFn) :
    (∀ (fuel : Nat) (s : StreamState),
        s.finished = false →
        s.input.length < s.pos + 4 →
        maybeNext cast ram (fuel + 1) s =
          (.ok none, { s with finished := true }))
    ∧ (∀ (fuel : Nat) (s : StreamState),
        s.finished = false →
        s.pos + 4 ≤ s.input.length →
        (s.input.drop s.pos).take 4 = [0, 0, 0, 0] →
        maybeNext cast ram (fuel + 1) s =
          (.ok none, { s with pos := s.pos + 4, finished := true }))
    ∧ (∀ (fuel : Nat) (s : StreamState),
        s.finished = true →
        maybeNext cast ram fuel s = (.ok none, s) ∧ isFinished s = true) := by
  refine ⟨?_, ?_, ?_⟩
  · intro fuel s hfin hlen
    have hre : readExact 4 s = none := by
      simp only [readExact, ite_eq_right_iff]
      omega
    unfold maybeNext
    simp [hfin, hre]
  · intro fuel s hfin hlen hbytes
    have hre : readExact 4 s =
        some ([0, 0, 0, 0], { s with pos := s.pos + 4 }) := by
      simp [readExact, hlen, hbytes]
    unfold maybeNext
    simp [hfin, hre, continuationMarker, i32FromLeBytes]
  · intro fuel s hfin
    constructor
    · unfold maybeNext
      simp [hfin]
    · simpa [isFinished] using hfin

/-- Witness for C8 at a concrete four-zero-byte stream: the zero-length
message finishes the reader cleanly, and from the finished state the next
call returns nothing and leaves the state (including the position)
unchanged. -/
theorem C8_stream_termination_witness :
    maybeNext castId (fun _ => .error "no message") 1
        ⟨[0, 0, 0, 0], 0, ⟨[]⟩, [], false, none⟩ =
      (.ok none, ⟨[0, 0, 0, 0], 4, ⟨[]⟩, [], true, none⟩)
    ∧ maybeNext castId (fun _ => .error "no message") 1
        ⟨[0, 0, 0, 0], 4, ⟨[]⟩, [], true, none⟩ =
      (.ok none, ⟨[0, 0, 0, 0], 4, ⟨[]⟩, [], true, none⟩)
    ∧ maybeNext castId (fun _ => .error "no message") 1
        ⟨[], 0, ⟨[]⟩, [], false, none⟩ =
      (.ok none, ⟨[], 0, ⟨[]⟩, [], true, none⟩) := by
  refine ⟨?_, ?_, ?_⟩
  · exact (C8_stream_termination castId (fun _ => .error "no message")).2.1
      0 ⟨[0, 0, 0, 0], 0, ⟨[]⟩, [], false, none⟩ rfl (by decide) (by decide)
  · exact ((C8_stream_termination castId
      (fun _ => .error "no message")).2.2 1
      ⟨[0, 0, 0, 0], 4, ⟨[]⟩, [], true, none⟩ rfl).1
  · exact (C8_stream_termination castId (fun _ => .error "no message")).1
      0 ⟨[], 0, ⟨[]⟩, [], false, none⟩ rfl (by decide)

end Ipc

namespace Ipc

/-- C10: reading a message whose header type is NONE returns no batch but
leaves `finished` unchanged (still false), so `is_finished` still reports
false; and the only ways `maybe_next` ever sets `finished` are the
clean end-of-stream paths, for whenever a call flips `finished` from
false to true its result is `Ok(None)` — never an error and never a
batch. -/
theorem C10_none_header_leaves_unfinished (cast : CastFn)
    (ram : RootAsMessageFn) :
    (∀ (fuel : Nat) (s s1 s2 : StreamState) (b4 mb : List Nat)
        (msg : Message),
        s.finished = false →
        readExact 4 s = some (b4, s1) →
        (b4 == continuationMarker) = false →
        (i32FromLeBytes b4 == 0) = false →
        readExact (usize64 (i32FromLeBytes b4)) s1 = some (mb, s2) →
        ram mb = .ok msg →
        msg.headerType = .NONE →
        maybeNext cast ram (fuel + 1) s = (.ok none, s2)
        ∧ s2.finished = false ∧ isFinished s2 = false)
    ∧ (∀ (fuel : Nat) (s : StreamState),
        s.finished = false →
        (maybeNext cast ram fuel s).2.finished = true →
        (maybeNext cast ram fuel s).1 = .ok none) := by
  constructor
  · intro fuel s s1 s2 b4 mb msg hfin hre hm hz hre2 hram hht
    obtain ⟨h1fin, -⟩ := readExact_some_fields 4 s s1 b4 hre
    obtain ⟨h2fin, -⟩ := readExact_some_fields _ s1 s2 mb hre2
    rw [h1fin, hfin] at h2fin
    refine ⟨?_, h2fin, by simpa [isFinished] using h2fin⟩
    unfold maybeNext
    simp [hfin, hre, hm, hz, hre2, hram, hht]
  · intro fuel
    induction fuel with
    | zero =>
      intro s hfin
      simp [maybeNext, hfin]
    | succ fuel ih =>
      intro s hfin
      unfold maybeNext
      rw [if_neg (by simp [hfin])]
      split
      · next heq0 => exact absurd heq0 (by omega)
      · next fuel2 heq0 =>
        obtain rfl : fuel2 = fuel := by omega
        cases hre : readExact 4 s with
        | none => intro _; rfl
        | some p =>
          obtain ⟨b4, s1⟩ := p
          obtain ⟨h1fin, -⟩ := readExact_some_fields 4 s s1 b4 hre
          rw [hfin] at h1fin
          split
          · next heq => exact absurd heq (by simp)
          · next mb s1x heq =>
            obtain ⟨rfl, rfl⟩ : b4 = mb ∧ s1 = s1x := by simpa using heq
            split
            · next e heq2 => simp [h1fin]
            · next metaBytes s2 heq2 =>
              have h2fin : s2.finished = false := by
                split at heq2
                · cases hre1 : readExact 4 s1 with
                  | none =>
                    rw [hre1] at heq2
                    simp at heq2
                  | some q =>
                    obtain ⟨mb1, s2x⟩ := q
                    rw [hre1] at heq2
                    obtain ⟨hf, -⟩ := readExact_some_fields 4 s1 s2x mb1 hre1
                    simp only [Except.ok.injEq, Prod.mk.injEq] at heq2
                    obtain ⟨-, rfl⟩ := heq2
                    rw [hf]
                    exact h1fin
                · simp only [Except.ok.injEq, Prod.mk.injEq] at heq2
                  obtain ⟨-, rfl⟩ := heq2
                  exact h1fin
              dsimp only
              split
              · intro _; rfl
              · cases hre2 : readExact (usize64 (i32FromLeBytes metaBytes)) s2 with
                | none => simp [h2fin]
                | some r =>
                  obtain ⟨mbuf, s3⟩ := r
                  obtain ⟨h3fin, -⟩ := readExact_some_fields _ s2 s3 mbuf hre2
                  rw [h2fin] at h3fin
                  cases hram : ram mbuf with
                  | error e => simp [hram, h3fin]
                  | ok msg =>
                    cases hht : msg.headerType with
                    | SchemaHeader => simp [hram, hht, h3fin]
                    | NONE => simp [hram, hht]
                    | Other => simp [hram, hht, h3fin]
                    | RecordBatchHeader =>
                      cases hrb : msg.recordBatch with
                      | none => simp [hram, hht, hrb, h3fin]
                      | some batch =>
                        cases hre3 : readExact msg.bodyLength s3 with
                        | none => simp [hram, hht, hrb, hre3, h3fin]
                        | some r2 =>
                          obtain ⟨buf, s4⟩ := r2
                          obtain ⟨h4fin, -⟩ :=
                            readExact_some_fields _ s3 s4 buf hre3
                          rw [h3fin] at h4fin
                          cases hrr : readRecordBatch cast buf batch
                              s4.schema s4.dicts
                              (s4.projection.map Prod.fst) msg.version with
                          | error e =>
                              simp [hram, hht, hrb, hre3, hrr, h4fin]
                          | ok rb =>
                              simp [hram, hht, hrb, hre3, hrr, h4fin]
                    | DictionaryBatchHeader =>
                      cases hdb : msg.dictionaryBatch with
                      | none => simp [hram, hht, hdb, h3fin]
                      | some batch =>
                        cases hre3 : readExact msg.bodyLength s3 with
                        | none => simp [hram, hht, hdb, hre3, h3fin]
                        | some r2 =>
                          obtain ⟨buf, s4⟩ := r2
                          obtain ⟨h4fin, -⟩ :=
                            readExact_some_fields _ s3 s4 buf hre3
                          rw [h3fin] at h4fin
                          cases hrd : readDictionary cast buf batch
                              s4.schema s4.dicts msg.version with
                          | error e =>
                              simp [hram, hht, hdb, hre3, hrd, h4fin]
                          | ok newDicts =>
                              simp only [hram, hht, hdb, hre3, hrd]
                              exact ih { s4 with dicts := newDicts } h4fin

end Ipc

namespace Ipc

/-- A decoder stand-in that reports every message as a NONE header. -/
def ramNone : RootAsMessageFn := fun _ => .ok ⟨.NONE, .V5, 0, none, none⟩

/-- Witness for C10: on a stream whose one message has a NONE header, the
reader returns no batch yet the state keeps `finished = false`, so
`is_finished` still reports false. -/
theorem C10_none_header_leaves_unfinished_witness :
    maybeNext castId ramNone 1
        ⟨[1, 0, 0, 0, 9], 0, ⟨[]⟩, [], false, none⟩ =
      (.ok none, ⟨[1, 0, 0, 0, 9], 5, ⟨[]⟩, [], false, none⟩)
    ∧ isFinished ⟨[1, 0, 0, 0, 9], 5, ⟨[]⟩, [], false, none⟩ = false := by
  have h := (C10_none_header_leaves_unfinished castId ramNone).1 0
    ⟨[1, 0, 0, 0, 9], 0, ⟨[]⟩, [], false, none⟩
    ⟨[1, 0, 0, 0, 9], 4, ⟨[]⟩, [], false, none⟩
    ⟨[1, 0, 0, 0, 9], 5, ⟨[]⟩, [], false, none⟩
    [1, 0, 0, 0] [9] ⟨.NONE, .V5, 0, none, none⟩
    rfl rfl rfl rfl rfl rfl rfl
  exact ⟨h.1, h.2.2⟩

end Ipc
